import Mathlib

/-!
Verification of the transcript reconstruction core of the `asc` tool
(`src/asc/message.py` and `src/asc/cli.py`): the `Message` record, the
`Message.format` rendering method, the `generate_chat` assembler loop and
the `parse_message_from_tr` parsing adapter, embedded shallowly as pure
Lean functions over `String` (Python strings) and `List String` (one
iteration order of the Python `set` of nicknames — quantifying over the
list captures every possible set-iteration order).
-/

/-- Whitespace predicate of Python `str.strip()` restricted to the ASCII
range (space, tab, newline, carriage return, vertical tab, form feed);
the non-ASCII Unicode spaces Python also strips play no role here. -/
def isPySpace (c : Char) : Bool :=
  c = ' ' || c = '\t' || c = '\n' || c = '\r' || c = '\x0b' || c = '\x0c'

/-- Left strip on character lists: Python `str.lstrip()`. -/
def lstripL (l : List Char) : List Char :=
  l.dropWhile isPySpace

/-- Right strip on character lists: Python `str.rstrip()`. -/
def rstripL (l : List Char) : List Char :=
  (l.reverse.dropWhile isPySpace).reverse

/-- Both-ends strip on character lists: Python `str.strip()`. -/
def stripL (l : List Char) : List Char :=
  rstripL (lstripL l)

/-- Python `s.strip()` on strings. -/
def pystrip (s : String) : String :=
  String.mk (stripL s.data)

/-- Python `s.startswith(pre)`: literal character-prefix test. -/
def pystartswith (s pre : String) : Bool :=
  pre.data.isPrefixOf s.data

/-- Python slicing `s[n:]`. -/
def strDrop (s : String) (n : Nat) : String :=
  String.mk (s.data.drop n)

/-- Character for one decimal digit. -/
def digitChar (n : Nat) : Char :=
  Char.ofNat (48 + n % 10)

/-- Two-digit zero-padded decimal rendering (for in-range field values). -/
def pad2 (n : Nat) : String :=
  String.mk [digitChar (n / 10), digitChar n]

/-- Four-digit zero-padded decimal rendering (for in-range years). -/
def pad4 (n : Nat) : String :=
  String.mk [digitChar (n / 1000), digitChar (n / 100), digitChar (n / 10), digitChar n]

/-- Timezone-naive point in time to the second, the value held in
`Message.timestamp` (Python `datetime.datetime` as produced by the
parsing adapter, which discards sub-second precision). -/
structure Timestamp where
  year : Nat
  month : Nat
  day : Nat
  hour : Nat
  minute : Nat
  second : Nat
deriving DecidableEq, Repr

/-- Python `str(datetime)` for a microsecond-free value:
`"YYYY-MM-DD HH:MM:SS"`. -/
def timestampStr (t : Timestamp) : String :=
  pad4 t.year ++ "-" ++ pad2 t.month ++ "-" ++ pad2 t.day ++ " " ++
    pad2 t.hour ++ ":" ++ pad2 t.minute ++ ":" ++ pad2 t.second

/-- The `Message` class of `src/asc/message.py`: timestamp, nickname and
text of one IRC log record.  Lean structure equality coincides with the
class's `__eq__` (field-wise comparison). -/
structure Message where
  timestamp : Timestamp
  nickname : String
  text : String
deriving DecidableEq, Repr

/-- Reply-detection loop of `Message.format` (`src/asc/message.py`
lines 37-44): scan the nicknames in iteration order; on the first
nickname that is a literal prefix of `msg`, drop that prefix, strip
whitespace, drop one leading colon if present and strip again, record
the matched nickname, and stop scanning.  Returns the possibly-rewritten
message body together with the matched nickname (`none` when no nickname
matched; Python `replied` stays `None`). -/
def replyScan (msg : String) : List String → String × Option String
  | [] => (msg, none)
  | nickname :: rest =>
    if pystartswith msg nickname then
      let msg1 := pystrip (strDrop msg nickname.data.length)
      let msg2 := if pystartswith msg1 ":" then pystrip (strDrop msg1 1) else msg1
      (msg2, some nickname)
    else
      replyScan msg rest

/-- Body rewriting applied by the reply-detection loop to the text that
remains after the matched nickname prefix is dropped: strip whitespace,
then drop one leading colon if present and strip again. -/
def stripReply (rest : String) : String :=
  let m := pystrip rest
  if pystartswith m ":" then pystrip (strDrop m 1) else m

/-- Three local variables `timestamp`, `context`, `msg` of
`Message.format` at the return statement (`src/asc/message.py`
lines 22-48): default "said" context; timestamp prefix only when
`verbose`; both cleared when the previous message has the same nickname
(consecutive-speaker collapse, Python `if prev_message and
prev_message.nickname == self.nickname`); reply detection rewrites the
body and, when the matched nickname is truthy (non-empty — Python
`if replied:`), overrides the context with the "replied to" line. -/
def formatParts (self : Message) (prev_message : Option Message)
    (nicknames : List String) (verbose : Bool) : String × String × String :=
  let msg := self.text
  let context := "\n" ++ self.nickname ++ " said:\n"
  let timestamp := if verbose then "\n" ++ timestampStr self.timestamp else ""
  let collapse : Bool := match prev_message with
    | some p => p.nickname == self.nickname
    | none => false
  let context := if collapse then "" else context
  let timestamp := if collapse then "" else timestamp
  let scanned := replyScan msg nicknames
  let msg := scanned.1
  let context := match scanned.2 with
    | some replied =>
        if replied = "" then context
        else "\n" ++ self.nickname ++ " replied to " ++ replied ++ ":\n"
    | none => context
  (timestamp, context, msg)

/-- The `Message.format` method: returns
`f"{timestamp}{context}{msg}"` over the three locals of `formatParts`. -/
def Message.format (self : Message) (prev_message : Option Message)
    (nicknames : List String) (verbose : Bool) : String :=
  let p := formatParts self prev_message nicknames verbose
  p.1 ++ p.2.1 ++ p.2.2

/-- One accumulation loop of `generate_chat` (`src/asc/cli.py`
lines 161-181): walk the messages in order, formatting each against the
previous one and concatenating the results.  `prev` is the loop's
`prev_message` variable entering the remaining messages. -/
def chatFoldFrom (nicknames : List String) (verbose : Bool) :
    Option Message → List Message → String
  | _, [] => ""
  | prev, m :: rest =>
      Message.format m prev nicknames verbose ++ chatFoldFrom nicknames verbose (some m) rest

/-- Full accumulation of one `generate_chat` loop starting from
`prev_message = None`. -/
def chatFold (messages : List Message) (nicknames : List String) (verbose : Bool) : String :=
  chatFoldFrom nicknames verbose none messages

/-- The `generate_chat` function of `src/asc/cli.py`: first loop renders
with the caller's verbosity flag (written to the chat file and stdout);
then `context.chat` is reset and a second loop re-renders with the
default `verbose=False` for the summarization input.  Returns
(display rendering, final `context.chat` summarization rendering). -/
def generate_chat (messages : List Message) (nicknames : List String)
    (verbose : Bool) : String × String :=
  (chatFold messages nicknames verbose, chatFold messages nicknames false)

/-- Raw `<tr>` row of an IRC log table as seen by
`parse_message_from_tr`: the `id` attribute (absent or its string), the
stripped text of the `th class="nick"` cell (absent when the row has no
such cell) and the stripped text of the `td class="text"` cell. -/
structure TrElement where
  id : Option String
  nick : Option String
  text : Option String
deriving DecidableEq, Repr

/-- Decimal value of a digit character. -/
def digitVal (c : Char) : Nat :=
  c.toNat - 48

/-- Model of Python `datetime.datetime.fromisoformat` restricted to the
two shapes relevant to the log ids: `"YYYY-MM-DD"` and
`"YYYY-MM-DDTHH:MM:SS"` with digits in calendar/clock range.  Any other
string yields `none`, which models the `ValueError` Python raises on a
malformed timestamp string. -/
def fromisoformat (s : String) : Option Timestamp :=
  match s.data with
  | [y1, y2, y3, y4, '-', m1, m2, '-', d1, d2] =>
      if ([y1, y2, y3, y4, m1, m2, d1, d2].all Char.isDigit) then
        let year := 1000 * digitVal y1 + 100 * digitVal y2 + 10 * digitVal y3 + digitVal y4
        let month := 10 * digitVal m1 + digitVal m2
        let day := 10 * digitVal d1 + digitVal d2
        if 1 ≤ month && month ≤ 12 && 1 ≤ day && day ≤ 31 then
          some ⟨year, month, day, 0, 0, 0⟩
        else none
      else none
  | [y1, y2, y3, y4, '-', m1, m2, '-', d1, d2, 'T', h1, h2, ':', n1, n2, ':', s1, s2] =>
      if ([y1, y2, y3, y4, m1, m2, d1, d2, h1, h2, n1, n2, s1, s2].all Char.isDigit) then
        let year := 1000 * digitVal y1 + 100 * digitVal y2 + 10 * digitVal y3 + digitVal y4
        let month := 10 * digitVal m1 + digitVal m2
        let day := 10 * digitVal d1 + digitVal d2
        let hour := 10 * digitVal h1 + digitVal h2
        let minute := 10 * digitVal n1 + digitVal n2
        let second := 10 * digitVal s1 + digitVal s2
        if 1 ≤ month && month ≤ 12 && 1 ≤ day && day ≤ 31
            && hour ≤ 23 && minute ≤ 59 && second ≤ 59 then
          some ⟨year, month, day, hour, minute, second⟩
        else none
      else none
  | _ => none

/-- The `parse_message_from_tr` function (`src/asc/message.py`
lines 68-98).  `Except.error` models an uncaught Python exception:
a missing or empty `id` attribute and a missing nick or text cell each
return `None` (`Except.ok none`), but a present, non-empty, unparseable
timestamp string reaches `datetime.datetime.fromisoformat`, which raises
`ValueError` — the function has no handler for it.  An id starting with
`'t'` is sliced to `timestamp_str[1:20]` first. -/
def parse_message_from_tr (tr : TrElement) : Except String (Option Message) :=
  match tr.id with
  | none => Except.ok none
  | some timestamp_str =>
    if timestamp_str = "" then Except.ok none
    else
      let ts :=
        if pystartswith timestamp_str "t" then
          String.mk ((timestamp_str.data.drop 1).take 19)
        else timestamp_str
      match fromisoformat ts with
      | none => Except.error "ValueError: invalid isoformat string"
      | some timestamp =>
        match tr.nick with
        | none => Except.ok none
        | some nickname =>
          match tr.text with
          | none => Except.ok none
          | some text => Except.ok (some ⟨timestamp, nickname, text⟩)

/-- Mutable-local view of one `Message.format` call for the purity
claim: the four inputs as a state, threaded through the statements of
the method.  The method rebinds only its local variables (`msg`,
`context`, `timestamp`, `replied`); no statement assigns to `self`, to
`prev_message`, to an attribute of either message, or to the nicknames
set, so the state after the call is rebuilt field by field from the
state before it. -/
structure FmtState where
  self : Message
  prev_message : Option Message
  nicknames : List String
  verbose : Bool
deriving DecidableEq, Repr

/-- Statement-by-statement translation of `Message.format` returning
both the output string and the post-call state. -/
def formatImp (st : FmtState) : String × FmtState :=
  let msg := st.self.text
  let context := "\n" ++ st.self.nickname ++ " said:\n"
  let timestamp := if st.verbose then "\n" ++ timestampStr st.self.timestamp else ""
  let collapse : Bool := match st.prev_message with
    | some p => p.nickname == st.self.nickname
    | none => false
  let context := if collapse then "" else context
  let timestamp := if collapse then "" else timestamp
  let scanned := replyScan msg st.nicknames
  let msg := scanned.1
  let context := match scanned.2 with
    | some replied =>
        if replied = "" then context
        else "\n" ++ st.self.nickname ++ " replied to " ++ replied ++ ":\n"
    | none => context
  (timestamp ++ context ++ msg,
    { self := st.self, prev_message := st.prev_message,
      nicknames := st.nicknames, verbose := st.verbose })

namespace StripLemmas

theorem lstripL_cons (c : Char) (l : List Char) :
    lstripL (c :: l) = if isPySpace c then lstripL l else c :: l := by
  simp [lstripL, List.dropWhile_cons]

theorem lstripL_eq_nil_iff (l : List Char) :
    lstripL l = [] ↔ ∀ c ∈ l, isPySpace c := by
  simp [lstripL, List.dropWhile_eq_nil_iff]

theorem rstripL_eq_nil_iff (l : List Char) :
    rstripL l = [] ↔ ∀ c ∈ l, isPySpace c := by
  unfold rstripL
  rw [List.reverse_eq_nil_iff, List.dropWhile_eq_nil_iff]
  constructor
  · intro h c hc
    exact h c (List.mem_reverse.mpr hc)
  · intro h c hc
    exact h c (List.mem_reverse.mp hc)

theorem rstripL_cons (c : Char) (l : List Char) :
    rstripL (c :: l) =
      if isPySpace c ∧ rstripL l = [] then [] else c :: rstripL l := by
  unfold rstripL
  rw [List.reverse_cons, List.dropWhile_append]
  by_cases h : (l.reverse.dropWhile isPySpace).isEmpty
  · rw [if_pos h]
    have hnil : (l.reverse.dropWhile isPySpace).reverse = [] := by
      simp only [List.isEmpty_iff] at h
      simp [h]
    by_cases hc : isPySpace c
    · simp [List.dropWhile_cons, hc, hnil]
    · simp [List.dropWhile_cons, hc, hnil]
  · rw [if_neg h]
    have hnil : ¬ (l.reverse.dropWhile isPySpace).reverse = [] := by
      simp only [List.isEmpty_iff] at h
      simp [h]
    simp [hnil]

theorem lstripL_idem (l : List Char) : lstripL (lstripL l) = lstripL l := by
  induction l with
  | nil => rfl
  | cons c t ih =>
      by_cases hc : isPySpace c
      · rw [lstripL_cons, if_pos hc, ih]
      · rw [lstripL_cons, if_neg hc, lstripL_cons, if_neg hc]

theorem rstripL_idem (l : List Char) : rstripL (rstripL l) = rstripL l := by
  induction l with
  | nil => rfl
  | cons c t ih =>
      rw [rstripL_cons]
      by_cases h : isPySpace c ∧ rstripL t = []
      · rw [if_pos h]; rfl
      · rw [if_neg h, rstripL_cons, ih, if_neg h]

theorem lstripL_rstripL_comm (l : List Char) :
    lstripL (rstripL l) = rstripL (lstripL l) := by
  induction l with
  | nil => rfl
  | cons c t ih =>
      by_cases hc : isPySpace c
      · by_cases ht : rstripL t = []
        · have hall : ∀ x ∈ t, isPySpace x = true := (rstripL_eq_nil_iff t).mp ht
          have hlt : lstripL t = [] := (lstripL_eq_nil_iff t).mpr hall
          rw [rstripL_cons, if_pos ⟨hc, ht⟩, lstripL_cons, if_pos hc, hlt]
          rfl
        · rw [rstripL_cons, if_neg (fun h => ht h.2), lstripL_cons, if_pos hc,
            lstripL_cons, if_pos hc, ih]
      · rw [rstripL_cons, if_neg (fun h => hc h.1), lstripL_cons, if_neg hc,
          lstripL_cons, if_neg hc, rstripL_cons, if_neg (fun h => hc h.1)]

end StripLemmas

namespace StripLemmas

theorem stripL_rstripL (l : List Char) : stripL (rstripL l) = stripL l := by
  unfold stripL
  rw [lstripL_rstripL_comm, rstripL_idem]

theorem stripL_cons_space (c : Char) (l : List Char) (hc : isPySpace c) :
    stripL (c :: l) = stripL l := by
  unfold stripL
  rw [lstripL_cons, if_pos hc]

theorem mem_lstripL (a : Char) (l : List Char) (h : a ∈ lstripL l) : a ∈ l :=
  (List.dropWhile_sublist _).subset h

theorem mem_rstripL (a : Char) (l : List Char) (h : a ∈ rstripL l) : a ∈ l := by
  unfold rstripL at h
  rw [List.mem_reverse] at h
  exact List.mem_reverse.mp ((List.dropWhile_sublist _).subset h)

theorem mem_stripL (a : Char) (l : List Char) (h : a ∈ stripL l) : a ∈ l :=
  mem_lstripL a l (mem_rstripL a (lstripL l) h)

end StripLemmas

namespace ScanLemmas
open StripLemmas

theorem replyScan_snd (msg : String) (nicks : List String) :
    (replyScan msg nicks).2 = nicks.find? (fun k => pystartswith msg k) := by
  induction nicks with
  | nil => rfl
  | cons k rest ih =>
      by_cases hk : pystartswith msg k
      · simp [replyScan, hk, List.find?_cons_of_pos _ hk]
      · rw [List.find?_cons_of_neg _ hk, ← ih]
        simp [replyScan, hk]

theorem replyScan_of_find (msg : String) (nicks : List String) (n : String)
    (h : nicks.find? (fun k => pystartswith msg k) = some n) :
    replyScan msg nicks = (stripReply (strDrop msg n.data.length), some n) := by
  induction nicks with
  | nil => simp [List.find?] at h
  | cons k rest ih =>
      by_cases hk : pystartswith msg k
      · rw [List.find?_cons_of_pos _ hk] at h
        obtain rfl : k = n := Option.some.inj h
        simp [replyScan, hk, stripReply, strDrop]
      · rw [List.find?_cons_of_neg _ hk] at h
        simp [replyScan, hk, ih h]

theorem replyScan_of_find_none (msg : String) (nicks : List String)
    (h : nicks.find? (fun k => pystartswith msg k) = none) :
    replyScan msg nicks = (msg, none) := by
  induction nicks with
  | nil => rfl
  | cons k rest ih =>
      by_cases hk : pystartswith msg k
      · rw [List.find?_cons_of_pos _ hk] at h
        exact absurd h (by simp)
      · rw [List.find?_cons_of_neg _ hk] at h
        simp [replyScan, hk, ih h]

theorem replyScan_mem (msg : String) (nicks : List String) (r : String)
    (h : (replyScan msg nicks).2 = some r) : r ∈ nicks := by
  rw [replyScan_snd] at h
  exact List.mem_of_find?_eq_some h

theorem strDrop_append (a b : String) : strDrop (a ++ b) a.data.length = b := by
  unfold strDrop
  rw [String.data_append, List.drop_left]

theorem pystartswith_colon (w : List Char) :
    pystartswith (String.mk (':' :: w)) ":" = true := by
  simp [pystartswith, List.isPrefixOf]

theorem stripL_colon_space (x : List Char) :
    stripL (':' :: ' ' :: x) = ':' :: rstripL (' ' :: x) := by
  unfold stripL
  rw [lstripL_cons, if_neg (by decide), rstripL_cons,
    if_neg (fun h => absurd h.1 (by decide))]

theorem stripReply_colon_space (rest : String) :
    stripReply (": " ++ rest) = pystrip rest := by
  have hm : pystrip (": " ++ rest) = String.mk (':' :: rstripL (' ' :: rest.data)) := by
    unfold pystrip
    rw [String.data_append]
    show String.mk (stripL (':' :: ' ' :: rest.data)) = _
    rw [stripL_colon_space]
  simp only [stripReply, hm, pystartswith_colon, if_pos]
  show pystrip (strDrop (String.mk (':' :: rstripL (' ' :: rest.data))) 1) = pystrip rest
  unfold strDrop pystrip
  show String.mk (stripL (List.drop 1 (':' :: rstripL (' ' :: rest.data)))) = _
  rw [List.drop_one, List.tail_cons, stripL_rstripL,
    stripL_cons_space ' ' rest.data (by decide)]

end ScanLemmas

namespace FormatLemmas
open StripLemmas ScanLemmas

theorem formatParts_reply (c : Message) (p : Option Message) (nicks : List String)
    (v : Bool) (b : String) (n : String)
    (h : replyScan c.text nicks = (b, some n)) (hn : n ≠ "") :
    (formatParts c p nicks v).2 =
      ("\n" ++ c.nickname ++ " replied to " ++ n ++ ":\n", b) := by
  simp [formatParts, h, hn]

theorem formatParts_ts_false (c : Message) (p : Option Message) (nicks : List String) :
    (formatParts c p nicks false).1 = "" := by
  simp [formatParts]

theorem str_empty_append (s : String) : "" ++ s = s := by
  obtain ⟨d⟩ := s
  rfl

end FormatLemmas

/-- C1: for a Record whose text starts with the first-matching element
of the nicknames iteration followed by `": "`, `Message.format` renders
a body that excludes that nickname and the colon (whitespace-trimmed)
and the context line `"\n{nickname} replied to {matched}:\n"`; the
first-match hypothesis captures that scanning stops at the first
matching nickname. -/
theorem C1_reply_strip_and_context (c : Message) (p : Option Message)
    (nicks : List String) (v : Bool) (n rest : String)
    (hfind : nicks.find? (fun k => pystartswith c.text k) = some n)
    (hn : n ≠ "")
    (htext : c.text = n ++ ": " ++ rest) :
    (formatParts c p nicks v).2 =
      ("\n" ++ c.nickname ++ " replied to " ++ n ++ ":\n", pystrip rest) := by
  have hassoc : c.text = n ++ (": " ++ rest) := by
    rw [htext, String.append_assoc]
  have hscan := ScanLemmas.replyScan_of_find c.text nicks n hfind
  rw [hassoc, ScanLemmas.strDrop_append, ScanLemmas.stripReply_colon_space] at hscan
  rw [← hassoc] at hscan
  exact FormatLemmas.formatParts_reply c p nicks v (pystrip rest) n hscan hn

/-- Closed instance of `C1_reply_strip_and_context` at the spec's own
concrete scenario record `(T3, "bob", "alice: good thanks")`. -/
theorem C1_reply_strip_and_context_witness :
    List.find? (fun k => pystartswith "alice: good thanks" k) ["alice"] = some "alice" ∧
    "alice" ≠ "" ∧
    "alice: good thanks" = "alice" ++ ": " ++ "good thanks" ∧
    (formatParts ⟨⟨2024, 1, 15, 14, 30, 25⟩, "bob", "alice: good thanks"⟩
        (some ⟨⟨2024, 1, 15, 14, 30, 24⟩, "alice", "hello there"⟩) ["alice"] false).2 =
      ("\nbob replied to alice:\n", pystrip "good thanks") :=
  ⟨by decide, by decide, by decide,
    C1_reply_strip_and_context _ _ ["alice"] false "alice" "good thanks"
      (by decide) (by decide) (by decide)⟩

/-- C2: when record B immediately follows record A by the same speaker,
`Message.format` emits no timestamp prefix and no "said:" context line
for either verbosity value; the context is the "replied to" line exactly
when reply detection fires with a truthy (non-empty) nickname, and the
timestamp prefix stays absent even then. -/
theorem C2_same_speaker_collapse (A B : Message) (nicks : List String) (v : Bool)
    (h : B.nickname = A.nickname) :
    (formatParts B (some A) nicks v).1 = "" ∧
    (formatParts B (some A) nicks v).2.1 =
      (match (replyScan B.text nicks).2 with
        | some r => if r = "" then "" else "\n" ++ B.nickname ++ " replied to " ++ r ++ ":\n"
        | none => "") := by
  refine ⟨by simp [formatParts, h], ?_⟩
  cases hr : (replyScan B.text nicks).2 with
  | none => simp [formatParts, h, hr]
  | some r =>
      by_cases hre : r = "" <;> simp [formatParts, h, hr, hre]

/-- Closed instance of `C2_same_speaker_collapse` at the spec scenario's
second record (same speaker as the first, no reply trigger), with
`verbose = true`. -/
theorem C2_same_speaker_collapse_witness :
    ("alice" : String) = "alice" ∧
    ((formatParts ⟨⟨2024, 1, 15, 14, 30, 26⟩, "alice", "how are you"⟩
        (some ⟨⟨2024, 1, 15, 14, 30, 25⟩, "alice", "hello there"⟩) ["bob"] true).1 = "" ∧
      (formatParts ⟨⟨2024, 1, 15, 14, 30, 26⟩, "alice", "how are you"⟩
        (some ⟨⟨2024, 1, 15, 14, 30, 25⟩, "alice", "hello there"⟩) ["bob"] true).2.1 =
        (match (replyScan "how are you" ["bob"]).2 with
          | some r => if r = "" then "" else "\n" ++ "alice" ++ " replied to " ++ r ++ ":\n"
          | none => "")) :=
  ⟨rfl, C2_same_speaker_collapse ⟨⟨2024, 1, 15, 14, 30, 25⟩, "alice", "hello there"⟩
    ⟨⟨2024, 1, 15, 14, 30, 26⟩, "alice", "how are you"⟩ ["bob"] true rfl⟩

/-- C5: the summarization rendering produced by `generate_chat` (the
final `context.chat`, rebuilt by the second loop with the default
`verbose=False`) is the same string for any two values of the caller's
verbosity flag. -/
theorem C5_summary_independent_of_verbose (messages : List Message)
    (nicknames : List String) (v1 v2 : Bool) :
    (generate_chat messages nicknames v1).2 = (generate_chat messages nicknames v2).2 :=
  rfl

/-- C6: with `verbose=False` the timestamp-prefix component of
`Message.format` is the empty string for every record, previous record
and nickname iteration, whatever the collapse state or reply detection,
so the returned string is exactly the context line plus the body. -/
theorem C6_nonverbose_never_timestamps (c : Message) (p : Option Message)
    (nicks : List String) :
    (formatParts c p nicks false).1 = "" ∧
    Message.format c p nicks false =
      (formatParts c p nicks false).2.1 ++ (formatParts c p nicks false).2.2 := by
  have hts := FormatLemmas.formatParts_ts_false c p nicks
  refine ⟨hts, ?_⟩
  show (formatParts c p nicks false).1 ++ (formatParts c p nicks false).2.1 ++
    (formatParts c p nicks false).2.2 = _
  rw [hts, FormatLemmas.str_empty_append]

/-- C7: reply detection is plain `startswith` with no word-boundary
check: whenever the first nickname the scan matches is a literal
character prefix of the text — `rest` is arbitrary, so the match may cut
a longer word — that nickname is stripped (with the colon/whitespace
rewriting) and the "replied to" context is produced. -/
theorem C7_plain_prefix_match (c : Message) (p : Option Message)
    (nicks : List String) (v : Bool) (n rest : String)
    (hfind : nicks.find? (fun k => pystartswith c.text k) = some n)
    (hn : n ≠ "")
    (htext : c.text = n ++ rest) :
    (formatParts c p nicks v).2 =
      ("\n" ++ c.nickname ++ " replied to " ++ n ++ ":\n", stripReply rest) := by
  have hscan := ScanLemmas.replyScan_of_find c.text nicks n hfind
  rw [htext, ScanLemmas.strDrop_append] at hscan
  rw [← htext] at hscan
  exact FormatLemmas.formatParts_reply c p nicks v (stripReply rest) n hscan hn

/-- Closed instance of `C7_plain_prefix_match`: nickname "bob"
false-positives against the unrelated word "bobby", leaving the body
"by: hi". -/
theorem C7_plain_prefix_match_witness :
    List.find? (fun k => pystartswith "bobby: hi" k) ["bob"] = some "bob" ∧
    "bob" ≠ "" ∧
    "bobby: hi" = "bob" ++ "by: hi" ∧
    (formatParts ⟨⟨2024, 1, 15, 14, 30, 25⟩, "carol", "bobby: hi"⟩ none ["bob"] false).2 =
      ("\ncarol replied to bob:\n", stripReply "by: hi") :=
  ⟨by decide, by decide, by decide,
    C7_plain_prefix_match _ none ["bob"] false "bob" "by: hi"
      (by decide) (by decide) (by decide)⟩

/-- C8: on the empty record sequence `generate_chat` produces the empty
string for both the display rendering and the summarization rendering
(and, being a total function in this embedding, raises nothing). -/
theorem C8_empty_sequence (nicknames : List String) (verbose : Bool) :
    generate_chat [] nicknames verbose = ("", "") :=
  rfl

/-- C9: `Message.format` is a pure deterministic function of
`(current, previous, nicknames, verbose)`: the statement-by-statement
state-threading translation `formatImp` returns every input unchanged
(the method rebinds only its locals, so neither record nor the nicknames
set is mutated), agrees with the pure `Message.format`, and a second
call on the post-call state returns the identical output. -/
theorem C9_format_pure_and_deterministic (st : FmtState) :
    (formatImp st).2 = st ∧
    (formatImp st).1 = Message.format st.self st.prev_message st.nicknames st.verbose ∧
    formatImp ((formatImp st).2) = formatImp st := by
  obtain ⟨s, p, n, v⟩ := st
  exact ⟨rfl, rfl, rfl⟩

/-- C10: a record whose text starts with its own (non-empty, first to
match) nickname is reported as a self-reply — the context becomes
`"\n{nickname} replied to {nickname}:\n"` and the nickname prefix is
stripped from the body — even when the previous record has the same
nickname (reply attribution overrides the collapse, while the cleared
timestamp prefix stays empty). -/
theorem C10_self_reply_overrides_collapse (c prev : Message) (nicks : List String)
    (v : Bool) (rest : String)
    (hprev : prev.nickname = c.nickname)
    (hfind : nicks.find? (fun k => pystartswith c.text k) = some c.nickname)
    (hn : c.nickname ≠ "")
    (htext : c.text = c.nickname ++ rest) :
    formatParts c (some prev) nicks v =
      ("", "\n" ++ c.nickname ++ " replied to " ++ c.nickname ++ ":\n", stripReply rest) := by
  have hscan := ScanLemmas.replyScan_of_find c.text nicks c.nickname hfind
  rw [htext, ScanLemmas.strDrop_append] at hscan
  rw [← htext] at hscan
  simp [formatParts, hscan, hn, hprev]

/-- Closed instance of `C10_self_reply_overrides_collapse`: alice
follows her own message with "alice: as I was saying". -/
theorem C10_self_reply_overrides_collapse_witness :
    ("alice" : String) = "alice" ∧
    List.find? (fun k => pystartswith "alice: as I was saying" k) ["alice"] = some "alice" ∧
    "alice" ≠ "" ∧
    "alice: as I was saying" = "alice" ++ ": as I was saying" ∧
    formatParts ⟨⟨2024, 1, 15, 14, 30, 26⟩, "alice", "alice: as I was saying"⟩
        (some ⟨⟨2024, 1, 15, 14, 30, 25⟩, "alice", "hello there"⟩) ["alice"] true =
      ("", "\nalice replied to alice:\n", stripReply ": as I was saying") :=
  ⟨rfl, by decide, by decide, by decide,
    C10_self_reply_overrides_collapse
      ⟨⟨2024, 1, 15, 14, 30, 26⟩, "alice", "alice: as I was saying"⟩
      ⟨⟨2024, 1, 15, 14, 30, 25⟩, "alice", "hello there"⟩ ["alice"] true
      ": as I was saying" rfl (by decide) (by decide) (by decide)⟩

/-- Splitting of a character list at newline characters (the separator
both structural context markers end and begin with): the pieces between
newlines, in order. -/
def splitNl : List Char → List (List Char)
  | [] => [[]]
  | c :: rest =>
    if c = '\n' then [] :: splitNl rest
    else
      match splitNl rest with
      | [] => [[c]]
      | h :: t => (c :: h) :: t

/-- Elements at the odd positions 1, 3, 5, … of a list. -/
def everyOdd : List α → List α
  | [] => []
  | [_] => []
  | _ :: b :: rest => b :: everyOdd rest

/-- Concatenation of a list of character lists. -/
def catLists : List (List Char) → List Char
  | [] => []
  | l :: t => l ++ catLists t

/-- Alternating flattening of (context, body) pairs. -/
def interleave : List (List Char × List Char) → List (List Char)
  | [] => []
  | p :: t => p.1 :: p.2 :: interleave t

/-- Context line a record contributes to a non-collapsed rendering,
without the surrounding newlines: the "said" line, overridden by the
"replied to" line when reply detection matches a truthy nickname. -/
def ctxLine (m : Message) (nicks : List String) : String :=
  match (replyScan m.text nicks).2 with
  | some r =>
      if r = "" then m.nickname ++ " said:"
      else m.nickname ++ " replied to " ++ r ++ ":"
  | none => m.nickname ++ " said:"

/-- Message body as rendered: the record text after any reply-prefix
stripping. -/
def replyBody (m : Message) (nicks : List String) : String :=
  (replyScan m.text nicks).1

/-- Character-list shape of one record's non-collapsed, non-verbose
rendering: newline, context marker line, newline, body. -/
def segData (m : Message) (nicks : List String) : List Char :=
  '\n' :: (ctxLine m nicks).data ++ '\n' :: (replyBody m nicks).data

/-- Re-splitting of a rendering on its structural context markers: when
every marker and every body is a single line, the rendering alternates
marker lines and body lines after an initial empty piece, so the bodies
are the pieces at odd positions. -/
def decodeBodies (s : String) : List String :=
  (everyOdd ((splitNl s.data).drop 1)).map String.mk

/-- Newline-free strings (one-line texts, nicknames and markers). -/
def nlFree (s : String) : Bool :=
  s.data.all (fun c => c != '\n')

/-- No two adjacent records share a nickname (no consecutive-speaker
collapse anywhere in the sequence). -/
def distinctAdj : List Message → Bool
  | [] => true
  | [_] => true
  | a :: b :: t => (a.nickname != b.nickname) && distinctAdj (b :: t)

namespace SplitLemmas
open StripLemmas ScanLemmas

theorem splitNl_ne_nil (l : List Char) : splitNl l ≠ [] := by
  cases l with
  | nil => simp [splitNl]
  | cons c rest =>
      by_cases hc : c = '\n'
      · simp [splitNl, hc]
      · cases h : splitNl rest with
        | nil => simp [splitNl, hc, h]
        | cons a t => simp [splitNl, hc, h]

theorem splitNl_cons_nl (l : List Char) : splitNl ('\n' :: l) = [] :: splitNl l := by
  simp [splitNl]

theorem splitNl_append_free (a : List Char) (ha : ∀ c ∈ a, c ≠ '\n')
    (l : List Char) (h : List Char) (t : List (List Char))
    (hl : splitNl l = h :: t) : splitNl (a ++ l) = (a ++ h) :: t := by
  induction a with
  | nil => simpa using hl
  | cons c a ih =>
      have hc : c ≠ '\n' := ha c (List.mem_cons_self c a)
      have ih2 := ih (fun x hx => ha x (List.mem_cons_of_mem c hx))
      simp [splitNl, hc, ih2]

theorem splitNl_free (l : List Char) (hfr : ∀ c ∈ l, c ≠ '\n') :
    splitNl l = [l] := by
  have h := splitNl_append_free l hfr [] [] [] rfl
  simpa using h

theorem splitNl_segments (segs : List (List Char × List Char))
    (hfree : ∀ p ∈ segs, (∀ c ∈ p.1, c ≠ '\n') ∧ (∀ c ∈ p.2, c ≠ '\n')) :
    splitNl (catLists (segs.map (fun p => '\n' :: p.1 ++ '\n' :: p.2))) =
      if segs.isEmpty then [[]] else [] :: interleave segs := by
  induction segs with
  | nil => rfl
  | cons p t ih =>
      have hp := hfree p (List.mem_cons_self p t)
      have ht : ∀ q ∈ t, (∀ c ∈ q.1, c ≠ '\n') ∧ (∀ c ∈ q.2, c ≠ '\n') :=
        fun q hq => hfree q (List.mem_cons_of_mem p hq)
      have ihx := ih ht
      show splitNl (('\n' :: p.1 ++ '\n' :: p.2) ++
        catLists (t.map (fun p => '\n' :: p.1 ++ '\n' :: p.2))) = _
      cases t with
      | nil =>
          have h2 : splitNl ('\n' :: p.2) = [] :: [p.2] := by
            simp [splitNl, splitNl_free p.2 hp.2]
          have h1 : splitNl (p.1 ++ '\n' :: p.2) = (p.1 ++ []) :: [p.2] :=
            splitNl_append_free p.1 hp.1 _ [] [p.2] h2
          simp [splitNl, catLists, interleave, h1]
      | cons q t2 =>
          rw [if_neg (by simp)] at ihx
          have hb := splitNl_append_free p.2 hp.2 _ [] (interleave (q :: t2)) ihx
          have h3 : splitNl ('\n' :: (p.2 ++
              catLists ((q :: t2).map (fun p => '\n' :: p.1 ++ '\n' :: p.2)))) =
              [] :: ((p.2 ++ []) :: interleave (q :: t2)) := by
            rw [splitNl_cons_nl, hb]
          have h4 := splitNl_append_free p.1 hp.1 _ _ _ h3
          rw [if_neg (by simp)]
          have hass : ('\n' :: p.1 ++ '\n' :: p.2) ++
              catLists ((q :: t2).map (fun p => '\n' :: p.1 ++ '\n' :: p.2)) =
              '\n' :: (p.1 ++ ('\n' :: (p.2 ++
                catLists ((q :: t2).map (fun p => '\n' :: p.1 ++ '\n' :: p.2))))) := by
            simp [List.append_assoc]
          rw [hass, splitNl_cons_nl, h4]
          simp [interleave]

end SplitLemmas

namespace ChatLemmas
open StripLemmas ScanLemmas SplitLemmas

theorem everyOdd_interleave (segs : List (List Char × List Char)) :
    everyOdd (interleave segs) = segs.map Prod.snd := by
  induction segs with
  | nil => rfl
  | cons p t ih => simp [interleave, everyOdd, ih]

theorem mem_pystrip (c : Char) (s : String) (h : c ∈ (pystrip s).data) : c ∈ s.data :=
  mem_stripL c s.data h

theorem mem_strDrop (c : Char) (s : String) (n : Nat)
    (h : c ∈ (strDrop s n).data) : c ∈ s.data :=
  List.drop_subset n s.data h

theorem mem_stripReply (c : Char) (s : String)
    (h : c ∈ (stripReply s).data) : c ∈ s.data := by
  simp only [stripReply] at h
  by_cases hcol : pystartswith (pystrip s) ":"
  · rw [if_pos hcol] at h
    exact mem_pystrip c s (mem_strDrop c (pystrip s) 1 (mem_pystrip c _ h))
  · rw [if_neg hcol] at h
    exact mem_pystrip c s h

theorem replyScan_fst_mem (msg : String) (nicks : List String) (c : Char)
    (hc : c ∈ (replyScan msg nicks).1.data) : c ∈ msg.data := by
  induction nicks with
  | nil => exact hc
  | cons k rest ih =>
      by_cases hk : pystartswith msg k
      · have he : replyScan msg (k :: rest) =
            (stripReply (strDrop msg k.data.length), some k) := by
          simp [replyScan, hk, stripReply]
        rw [he] at hc
        exact mem_strDrop c msg k.data.length (mem_stripReply c _ hc)
      · have he : replyScan msg (k :: rest) = replyScan msg rest := by
          simp [replyScan, hk]
        rw [he] at hc
        exact ih hc

theorem replyBody_free (m : Message) (nicks : List String)
    (htext : ∀ c ∈ m.text.data, c ≠ '\n') :
    ∀ c ∈ (replyBody m nicks).data, c ≠ '\n' :=
  fun c hc => htext c (replyScan_fst_mem m.text nicks c hc)

theorem ctxLine_free (m : Message) (nicks : List String)
    (hnick : ∀ c ∈ m.nickname.data, c ≠ '\n')
    (hnicks : ∀ n ∈ nicks, ∀ c ∈ n.data, c ≠ '\n') :
    ∀ c ∈ (ctxLine m nicks).data, c ≠ '\n' := by
  intro c hc
  cases hscan : (replyScan m.text nicks).2 with
  | none =>
      have hctx : ctxLine m nicks = m.nickname ++ " said:" := by
        simp [ctxLine, hscan]
      rw [hctx, String.data_append] at hc
      rcases List.mem_append.mp hc with h | h
      · exact hnick c h
      · intro heq
        subst heq
        exact absurd h (by decide)
  | some r =>
      have hr : r ∈ nicks := replyScan_mem m.text nicks r hscan
      by_cases hre : r = ""
      · have hctx : ctxLine m nicks = m.nickname ++ " said:" := by
          simp [ctxLine, hscan, hre]
        rw [hctx, String.data_append] at hc
        rcases List.mem_append.mp hc with h | h
        · exact hnick c h
        · intro heq
          subst heq
          exact absurd h (by decide)
      · have hctx : ctxLine m nicks =
            m.nickname ++ " replied to " ++ r ++ ":" := by
          simp [ctxLine, hscan, hre]
        rw [hctx, String.data_append, String.data_append,
          String.data_append] at hc
        rcases List.mem_append.mp hc with h | h
        · rcases List.mem_append.mp h with h2 | h2
          · rcases List.mem_append.mp h2 with h3 | h3
            · exact hnick c h3
            · intro heq
              subst heq
              exact absurd h3 (by decide)
          · exact hnicks r hr c h2
        · intro heq
          subst heq
          exact absurd h (by decide)

theorem format_data_no_collapse (c : Message) (pm : Option Message)
    (nicks : List String)
    (hp : ∀ q, pm = some q → q.nickname ≠ c.nickname) :
    (Message.format c pm nicks false).data = segData c nicks := by
  have e1 : (" said:\n" : String).data = " said:".data ++ ['\n'] := rfl
  have e2 : (":\n" : String).data = ":".data ++ ['\n'] := rfl
  have e3 : ("\n" : String).data = ['\n'] := rfl
  cases hscan : replyScan c.text nicks with
  | mk b ro =>
      cases pm with
      | none =>
          cases ro with
          | none =>
              simp [Message.format, formatParts, hscan, segData, ctxLine, replyBody,
                String.data_append, e1, e3]
          | some r =>
              by_cases hre : r = "" <;>
                simp [Message.format, formatParts, hscan, hre, segData, ctxLine,
                  replyBody, String.data_append, e1, e2, e3]
      | some q =>
          have hb : (q.nickname == c.nickname) = false :=
            beq_eq_false_iff_ne.mpr (hp q rfl)
          cases ro with
          | none =>
              simp [Message.format, formatParts, hscan, hb, segData, ctxLine, replyBody,
                String.data_append, e1, e3]
          | some r =>
              by_cases hre : r = "" <;>
                simp [Message.format, formatParts, hscan, hb, hre, segData, ctxLine,
                  replyBody, String.data_append, e1, e2, e3]

theorem chatFoldFrom_data (nicks : List String) (msgs : List Message) :
    ∀ pm : Option Message,
      distinctAdj msgs = true →
      (∀ q, pm = some q → ∀ m2 rest2, msgs = m2 :: rest2 → q.nickname ≠ m2.nickname) →
      (chatFoldFrom nicks false pm msgs).data =
        catLists (msgs.map (fun m => segData m nicks)) := by
  induction msgs with
  | nil =>
      intro pm _ _
      rfl
  | cons m rest ih =>
      intro pm hadj hpm
      have hok : ∀ q, pm = some q → q.nickname ≠ m.nickname :=
        fun q hq => hpm q hq m rest rfl
      have hfmt := format_data_no_collapse m pm nicks hok
      have hadj' : distinctAdj rest = true := by
        cases rest with
        | nil => rfl
        | cons m2 r2 =>
            simp only [distinctAdj, Bool.and_eq_true] at hadj
            exact hadj.2
      have hnext : ∀ q, some m = some q →
          ∀ m2 rest2, rest = m2 :: rest2 → q.nickname ≠ m2.nickname := by
        intro q hq m2 rest2 hrest
        obtain rfl := Option.some.inj hq
        rw [hrest] at hadj
        simp only [distinctAdj, Bool.and_eq_true, bne_iff_ne, ne_eq] at hadj
        exact hadj.1
      show (Message.format m pm nicks false ++
        chatFoldFrom nicks false (some m) rest).data = _
      rw [String.data_append, hfmt, ih (some m) hadj' hnext]
      rfl

end ChatLemmas

/-- C4 (counterexample): the round-trip claim fails as stated.  Two
consecutive records by the same speaker collapse into one unmarked
segment — `generate_chat`'s non-verbose rendering of
`[(T1, alice, "one"), (T2, alice, "two")]` is `"\nalice said:\nonetwo"`,
and re-splitting it on its structural context markers recovers the single
body `"onetwo"`, not the two input bodies `"one"` and `"two"`. -/
theorem C4_roundtrip_counterexample :
    ¬ decodeBodies (chatFold
        [⟨⟨2024, 1, 15, 14, 30, 25⟩, "alice", "one"⟩,
          ⟨⟨2024, 1, 15, 14, 30, 26⟩, "alice", "two"⟩] [] false) =
      ([⟨⟨2024, 1, 15, 14, 30, 25⟩, "alice", "one"⟩,
          ⟨⟨2024, 1, 15, 14, 30, 26⟩, "alice", "two"⟩] : List Message).map
        (fun m => replyBody m []) := by
  decide

/-- C4 (amended): for every ordered Record sequence in which no two
adjacent records share a nickname (so no attribution collapse occurs)
and whose texts, record nicknames and set nicknames contain no newline
character, the non-verbose Assembler rendering, re-split on its
structural context markers (each marker and each body being one line,
cutting at newlines and keeping the odd-position lines), recovers
exactly the sequence of message bodies (modulo stripped reply prefixes)
in the input order. -/
theorem C4_roundtrip_amended (msgs : List Message) (nicks : List String)
    (hadj : distinctAdj msgs = true)
    (htext : (msgs.all fun m => nlFree m.text) = true)
    (hnick : (msgs.all fun m => nlFree m.nickname) = true)
    (hnicks : (nicks.all fun n => nlFree n) = true) :
    decodeBodies (chatFold msgs nicks false) =
      msgs.map (fun m => replyBody m nicks) := by
  have htext2 : ∀ m ∈ msgs, ∀ c ∈ m.text.data, c ≠ '\n' := by
    intro m hm c hc
    have h1 := List.all_eq_true.mp htext m hm
    simp only [nlFree, List.all_eq_true, bne_iff_ne, ne_eq] at h1
    exact h1 c hc
  have hnick2 : ∀ m ∈ msgs, ∀ c ∈ m.nickname.data, c ≠ '\n' := by
    intro m hm c hc
    have h1 := List.all_eq_true.mp hnick m hm
    simp only [nlFree, List.all_eq_true, bne_iff_ne, ne_eq] at h1
    exact h1 c hc
  have hnicks2 : ∀ n ∈ nicks, ∀ c ∈ n.data, c ≠ '\n' := by
    intro n hn c hc
    have h1 := List.all_eq_true.mp hnicks n hn
    simp only [nlFree, List.all_eq_true, bne_iff_ne, ne_eq] at h1
    exact h1 c hc
  have hdata : (chatFold msgs nicks false).data =
      catLists (msgs.map (fun m => segData m nicks)) :=
    ChatLemmas.chatFoldFrom_data nicks msgs none hadj
      (fun q hq => Option.noConfusion hq)
  have hmap : msgs.map (fun m => segData m nicks) =
      (msgs.map (fun m => ((ctxLine m nicks).data, (replyBody m nicks).data))).map
        (fun p => '\n' :: p.1 ++ '\n' :: p.2) := by
    rw [List.map_map]
    rfl
  have hfree : ∀ p ∈ msgs.map
      (fun m => ((ctxLine m nicks).data, (replyBody m nicks).data)),
      (∀ c ∈ p.1, c ≠ '\n') ∧ (∀ c ∈ p.2, c ≠ '\n') := by
    intro p hp
    obtain ⟨m, hm, rfl⟩ := List.mem_map.mp hp
    exact ⟨ChatLemmas.ctxLine_free m nicks (hnick2 m hm) hnicks2,
      ChatLemmas.replyBody_free m nicks (htext2 m hm)⟩
  have hsplit := SplitLemmas.splitNl_segments _ hfree
  unfold decodeBodies
  rw [hdata, hmap, hsplit]
  cases msgs with
  | nil => rfl
  | cons m rest =>
      rw [if_neg (by simp)]
      rw [List.drop_one, List.tail_cons, ChatLemmas.everyOdd_interleave,
        List.map_map, List.map_map]
      rfl

/-- Closed instance of `C4_roundtrip_amended` on a two-speaker sequence
with one reply-stripped body. -/
theorem C4_roundtrip_amended_witness :
    distinctAdj [⟨⟨2024, 1, 15, 14, 30, 25⟩, "alice", "hello there"⟩,
        ⟨⟨2024, 1, 15, 14, 30, 26⟩, "bob", "alice: good thanks"⟩] = true ∧
    (([⟨⟨2024, 1, 15, 14, 30, 25⟩, "alice", "hello there"⟩,
        ⟨⟨2024, 1, 15, 14, 30, 26⟩, "bob", "alice: good thanks"⟩] : List Message).all
      fun m => nlFree m.text) = true ∧
    (([⟨⟨2024, 1, 15, 14, 30, 25⟩, "alice", "hello there"⟩,
        ⟨⟨2024, 1, 15, 14, 30, 26⟩, "bob", "alice: good thanks"⟩] : List Message).all
      fun m => nlFree m.nickname) = true ∧
    ((["alice", "bob"] : List String).all fun n => nlFree n) = true ∧
    decodeBodies (chatFold [⟨⟨2024, 1, 15, 14, 30, 25⟩, "alice", "hello there"⟩,
        ⟨⟨2024, 1, 15, 14, 30, 26⟩, "bob", "alice: good thanks"⟩] ["alice", "bob"] false) =
      ([⟨⟨2024, 1, 15, 14, 30, 25⟩, "alice", "hello there"⟩,
        ⟨⟨2024, 1, 15, 14, 30, 26⟩, "bob", "alice: good thanks"⟩] : List Message).map
        (fun m => replyBody m ["alice", "bob"]) :=
  ⟨by decide, by decide, by decide, by decide,
    C4_roundtrip_amended
      [⟨⟨2024, 1, 15, 14, 30, 25⟩, "alice", "hello there"⟩,
        ⟨⟨2024, 1, 15, 14, 30, 26⟩, "bob", "alice: good thanks"⟩]
      ["alice", "bob"] (by decide) (by decide) (by decide) (by decide)⟩

/-- C3 (code bug): the parsing adapter returns no record for a missing
or empty id attribute, a missing nick cell or a missing text cell, but a
present, non-empty, unparseable timestamp id reaches
`datetime.datetime.fromisoformat` unguarded and raises `ValueError`
instead of yielding `None` — contradicting the function's own docstring
("Message instance if parsing successful, None otherwise") and the
caller `get_messages`, which skips falsy rows with
`if not message: continue`. -/
theorem C3_unparseable_timestamp_raises :
    parse_message_from_tr ⟨some "tnotadate", some "alice", some "hi"⟩ =
      Except.error "ValueError: invalid isoformat string" ∧
    parse_message_from_tr ⟨none, some "alice", some "hi"⟩ = Except.ok none ∧
    parse_message_from_tr ⟨some "", some "alice", some "hi"⟩ = Except.ok none ∧
    parse_message_from_tr ⟨some "t2024-01-15T14:30:25", none, some "hi"⟩ =
      Except.ok none ∧
    parse_message_from_tr ⟨some "t2024-01-15T14:30:25", some "alice", none⟩ =
      Except.ok none :=
  ⟨rfl, rfl, rfl, rfl, rfl⟩
